import Mathlib

/-!
Verification of the etf-strategy repository core against its specification.

The development shallowly embeds the scoring engine (`scoring.py`, duplicated
in `main.py`), the pool selector (`generate_stock_pool`), and the
cache/acquisition layer (`crawler.py`, `data_fix.py`).

Modelling conventions:
 * Python floats are modelled as exact rationals (`ℚ`); the two places where
   the source takes a square root (`numpy.sqrt` inside the volatility and
   Sharpe computations) are modelled over `ℝ` with `Real.sqrt`.
 * A pandas `DataFrame` of daily bars is a `List Bar`, rows in file order;
   a column is the corresponding list of field values.
 * `None`/missing results are `Option`; a Python exception escaping a
   computation is an `Except.error`.
 * `pandas.sort_values` on a single key is modelled by `List.insertionSort`
   on that key (with pairwise-distinct keys every comparison sort agrees).
 * Division by zero follows Lean's `x / 0 = 0` convention; theorems that
   depend on a quotient carry positivity hypotheses matching the domain on
   which the pandas computation is NaN-free.
-/

namespace EtfStrategy

/-- One scored ETF, as produced by `calculate_ETF_score` in `scoring.py`
(dict with keys code, total_score, liquidity_score, risk_score, return_score,
premium_score, sentiment_score). -/
structure ScoreRecord where
  code : String
  total_score : ℚ
  liquidity_score : ℚ
  risk_score : ℚ
  return_score : ℚ
  premium_score : ℚ
  sentiment_score : ℚ
deriving DecidableEq

/-! ## Pool selector (`generate_stock_pool`, scoring.py lines 306-352 and the
identical copy in main.py lines 501-547) -/

/-- `stable_etfs = scores_df[scores_df['risk_score'] > 75]` (scoring.py line 307). -/
def stable_etfs (scores_df : List ScoreRecord) : List ScoreRecord :=
  scores_df.filter fun r => 75 < r.risk_score

/-- `aggressive_etfs = scores_df[scores_df['risk_score'] <= 75]` (scoring.py line 331). -/
def aggressive_etfs (scores_df : List ScoreRecord) : List ScoreRecord :=
  scores_df.filter fun r => r.risk_score ≤ 75

/-- `sort_values('total_score', ascending=False)` on score records. -/
def sort_by_total_desc (l : List ScoreRecord) : List ScoreRecord :=
  List.insertionSort (fun a b => b.total_score ≤ a.total_score) l

/-- Bucket selection (scoring.py lines 309-328 / 333-352): if the eligible set
is non-empty take the top 5 by total score, otherwise use the scored fixed
fallback list (`fallback_scored` stands for the list of `calculate_ETF_score`
results of the five hard-coded fallback codes). -/
def selected_bucket (eligible fallback_scored : List ScoreRecord) : List ScoreRecord :=
  if eligible.isEmpty then fallback_scored
  else (sort_by_total_desc eligible).take 5

/-- The stable bucket of the generated pool. -/
def selected_stable (scores_df fallback_scored : List ScoreRecord) : List ScoreRecord :=
  selected_bucket (stable_etfs scores_df) fallback_scored

/-- The aggressive bucket of the generated pool. -/
def selected_aggressive (scores_df fallback_scored : List ScoreRecord) : List ScoreRecord :=
  selected_bucket (aggressive_etfs scores_df) fallback_scored

/-- A concrete scored record whose risk sub-score is exactly 75. -/
def recRisk75 : ScoreRecord :=
  { code := "sh.510300", total_score := 90, liquidity_score := 80, risk_score := 75,
    return_score := 70, premium_score := 80, sentiment_score := 60 }

/-- A concrete scored record whose risk sub-score is 80 (stable-eligible). -/
def recRisk80 : ScoreRecord :=
  { code := "sh.510050", total_score := 88, liquidity_score := 70, risk_score := 80,
    return_score := 60, premium_score := 75, sentiment_score := 55 }

/-- C1 (amended): a scored record is stable-eligible iff its risk sub-score is
strictly greater than 75, and aggressive-eligible iff its risk sub-score is at
most 75; in particular a record is in exactly one of the two eligible sets. -/
theorem stable_bucket_strict_threshold (scores_df : List ScoreRecord) (r : ScoreRecord) :
    (r ∈ stable_etfs scores_df ↔ r ∈ scores_df ∧ 75 < r.risk_score)
    ∧ (r ∈ aggressive_etfs scores_df ↔ r ∈ scores_df ∧ r.risk_score ≤ 75)
    ∧ (r ∈ scores_df → (r ∈ stable_etfs scores_df ↔ r ∉ aggressive_etfs scores_df)) := by
  refine ⟨?_, ?_, ?_⟩
  · simp [stable_etfs, List.mem_filter]
  · simp [aggressive_etfs, List.mem_filter]
  · intro hr
    simp [stable_etfs, aggressive_etfs, List.mem_filter, hr, not_le]

/-- C1 counterexample: a record whose risk sub-score equals exactly 75 is not
stable-eligible; it lands in the aggressive-eligible set. -/
theorem risk_exactly_75_is_not_stable_eligible :
    recRisk75.risk_score = 75
    ∧ recRisk75 ∉ stable_etfs [recRisk75]
    ∧ recRisk75 ∈ aggressive_etfs [recRisk75] := by
  refine ⟨rfl, ?_, ?_⟩ <;> decide

/-- C2 (amended): the generated buckets are not always of size 5: when the
eligible set is non-empty the bucket has `min 5` of its size (so between 1 and
5 entries), and only when the eligible set is empty is the scored fallback
list used, giving a bucket of the fallback's length. -/
theorem pool_bucket_sizes (scores_df fallback_scored : List ScoreRecord) :
    (selected_stable scores_df fallback_scored).length
      = (if (stable_etfs scores_df).isEmpty then fallback_scored.length
         else min 5 (stable_etfs scores_df).length)
    ∧ (selected_aggressive scores_df fallback_scored).length
      = (if (aggressive_etfs scores_df).isEmpty then fallback_scored.length
         else min 5 (aggressive_etfs scores_df).length) := by
  constructor <;>
  · simp only [selected_stable, selected_aggressive, selected_bucket]
    split
    · rfl
    · rw [List.length_take, sort_by_total_desc,
        (List.perm_insertionSort _ _).length_eq]

/-- C2 counterexample: with a single stable-eligible scored record the stable
bucket of the generated pool has exactly 1 entry, not 5. -/
theorem pool_stable_bucket_can_be_smaller_than_5 :
    (selected_stable [recRisk80] []).length = 1 ∧ (1 : ℕ) ≠ 5 := by
  constructor <;> decide

/-! ## Scoring engine (scoring.py lines 99-277; identical copy in main.py).
Columns of the daily DataFrame appear as lists in chronological (row) order. -/

/-- `series.tail(30)`: the last (up to) 30 entries. -/
def tail30 (l : List ℚ) : List ℚ := l.drop (l.length - 30)

/-- `series.mean()`. -/
def mean (l : List ℚ) : ℚ := l.sum / (l.length : ℚ)

/-- `close.pct_change().dropna()`: consecutive relative changes. -/
def pct_change (closes : List ℚ) : List ℚ :=
  (closes.zip closes.tail).map fun p => p.2 / p.1 - 1

/-- `series.cumprod()`, accumulator form. -/
def cumprodAux (acc : ℚ) : List ℚ → List ℚ
  | [] => []
  | x :: xs => (acc * x) :: cumprodAux (acc * x) xs

/-- `(1 + daily_returns).cumprod()` applied to an already-shifted list. -/
def cumprod (l : List ℚ) : List ℚ := cumprodAux 1 l

/-- `series.cummax()`, accumulator form. -/
def cummaxAux (cur : ℚ) : List ℚ → List ℚ
  | [] => []
  | x :: xs => max cur x :: cummaxAux (max cur x) xs

/-- `series.cummax()`. -/
def cummax : List ℚ → List ℚ
  | [] => []
  | x :: xs => x :: cummaxAux x xs

/-- `series.max()` of a non-empty series (0 on the empty list, which the
source never reaches because of its length guards). -/
def listMax : List ℚ → ℚ
  | [] => 0
  | x :: xs => xs.foldl max x

/-- `series.std()` squared: pandas sample variance (ddof = 1). -/
def sampleVariance (l : List ℚ) : ℚ :=
  (l.map fun x => (x - mean l) ^ 2).sum / ((l.length : ℚ) - 1)

/-- `calculate_liquidity_score` (scoring.py lines 99-119): 30-day average
volume (in units of 1e8) against a cap of 10, with the asset scale hard-coded
to 5 against a cap of 10; the two normalized parts mixed 60/40. -/
def calculate_liquidity_score (volume : List ℚ) : ℚ :=
  min 100 (mean (tail30 volume) / 100000000 / 10 * 100) * (6/10)
    + min 100 ((5:ℚ) / 10 * 100) * (4/10)

/-- `daily_returns.std() * np.sqrt(252) * 100` (scoring.py line 135). -/
noncomputable def annual_volatility (closes : List ℚ) : ℝ :=
  Real.sqrt (sampleVariance (pct_change closes) : ℚ) * Real.sqrt 252 * 100

/-- `drawdown = 1 - cum_returns / cum_returns.cummax()` (scoring.py line 139). -/
def drawdowns (daily_returns : List ℚ) : List ℚ :=
  let cum := cumprod (daily_returns.map fun r => 1 + r)
  List.zipWith (fun c m => 1 - c / m) cum (cummax cum)

/-- `drawdown.max() * 100` (scoring.py line 140). -/
def max_drawdown (closes : List ℚ) : ℚ :=
  listMax (drawdowns (pct_change closes)) * 100

/-- `calculate_risk_score` (scoring.py lines 121-149). Fewer than 30 daily
returns yields the fixed value 70; otherwise a 60/40 mix of the volatility
and drawdown scores. -/
noncomputable def calculate_risk_score (closes : List ℚ) : ℝ :=
  if (pct_change closes).length < 30 then 70
  else
    max 0 (100 - annual_volatility closes * 2) * (6/10)
      + (↑(max 0 (100 - max_drawdown closes * 2)) : ℝ) * (4/10)

/-- `one_year_return` (scoring.py lines 161-164): percentage change over the
last 252 sessions, 0 when history is shorter. -/
def one_year_return (closes : List ℚ) : ℚ :=
  if 252 ≤ closes.length then
    (closes.getD (closes.length - 1) 0 / closes.getD (closes.length - 252) 0 - 1) * 100
  else 0

/-- `three_year_return` (scoring.py lines 167-170): percentage change over the
last 756 sessions; with shorter history `one_year_return * 3` when the
one-year return is positive, else `one_year_return` itself. -/
def three_year_return (closes : List ℚ) : ℚ :=
  if 756 ≤ closes.length then
    (closes.getD (closes.length - 1) 0 / closes.getD (closes.length - 756) 0 - 1) * 100
  else
    if 0 < one_year_return closes then one_year_return closes * 3
    else one_year_return closes

/-- `sharpe_ratio` (scoring.py lines 173-177): mean over std of daily returns,
annualized; 0 when there are no returns. -/
noncomputable def sharpe (closes : List ℚ) : ℝ :=
  let dr := pct_change closes
  if dr.length = 0 then 0
  else (mean dr : ℝ) / Real.sqrt (sampleVariance dr : ℚ) * Real.sqrt 252

/-- `calculate_return_score` (scoring.py lines 151-185). -/
noncomputable def calculate_return_score (closes : List ℚ) : ℝ :=
  (↑(min 100 (max 0 (one_year_return closes * 2))) : ℝ) * (3/10)
    + (↑(min 100 (max 0 (three_year_return closes))) : ℝ) * (4/10)
    + min 100 (max 0 (sharpe closes * 10)) * (3/10)

/-- `score = max(0, 100 - deviation * 5)` (scoring.py line 200). -/
def premium_base (premium_rate : ℚ) : ℚ :=
  max 0 (100 - |premium_rate| * 5)

/-- The +10 moderate-premium bonus on [0.5, 1.5] (scoring.py lines 203-204). -/
def premium_after_bonus (premium_rate : ℚ) : ℚ :=
  if 1/2 ≤ premium_rate ∧ premium_rate ≤ 3/2 then min 100 (premium_base premium_rate + 10)
  else premium_base premium_rate

/-- `calculate_premium_score` (scoring.py lines 187-210): the base score plus
the moderate-premium bonus, then the +5 mild-discount bonus on [-1, 0). -/
def calculate_premium_score (premium_rate : ℚ) : ℚ :=
  if -1 ≤ premium_rate ∧ premium_rate < 0 then min 100 (premium_after_bonus premium_rate + 5)
  else premium_after_bonus premium_rate

/-- `top5_weight`: sum of the five largest component weights (scoring.py line 227). -/
def top5_weight (weights : List ℚ) : ℚ :=
  ((List.insertionSort (fun a b : ℚ => b ≤ a) weights).take 5).sum

/-- `industry_diversity = min(10, len(weights) // 5)` (scoring.py line 230). -/
def industry_diversity (weights : List ℚ) : ℕ :=
  min 10 (weights.length / 5)

/-- `calculate_sentiment_score` (scoring.py lines 212-236) over the component
weight values; an absent weight dict gives the neutral default 60. -/
def calculate_sentiment_score (weights : List ℚ) : ℚ :=
  if weights.isEmpty then 60
  else min 100 (top5_weight weights * 150) * (6/10)
    + min 100 ((industry_diversity weights : ℚ) * 10) * (4/10)

/-- The weighted total of `calculate_ETF_score` (scoring.py lines 261-267)
with `SCORE_WEIGHTS = liquidity 0.20, risk 0.25, return 0.25, premium 0.15,
sentiment 0.15`. -/
noncomputable def weighted_total_score (closes volume : List ℚ) (premium_rate : ℚ)
    (weights : List ℚ) : ℝ :=
  (↑(calculate_liquidity_score volume) : ℝ) * (20/100)
    + calculate_risk_score closes * (25/100)
    + calculate_return_score closes * (25/100)
    + (↑(calculate_premium_score premium_rate) : ℝ) * (15/100)
    + (↑(calculate_sentiment_score weights) : ℝ) * (15/100)

/-! ## Score bound lemmas -/

theorem le_listMax_head (x : ℚ) (xs : List ℚ) : x ≤ listMax (x :: xs) := by
  show x ≤ xs.foldl max x
  induction xs generalizing x with
  | nil => exact le_refl x
  | cons y ys ih => exact le_trans (le_max_left x y) (ih (max x y))

theorem min100_bounds (x : ℚ) (hx : 0 ≤ x) : 0 ≤ min 100 x ∧ min 100 x ≤ 100 :=
  ⟨le_min (by norm_num) hx, min_le_left _ _⟩

theorem liquidity_score_bounds (volume : List ℚ) (h0 : ∀ v ∈ volume, 0 ≤ v) :
    0 ≤ calculate_liquidity_score volume ∧ calculate_liquidity_score volume ≤ 100 := by
  have hsum : 0 ≤ (tail30 volume).sum :=
    List.sum_nonneg fun v hv => h0 v (List.drop_subset _ _ hv)
  have hmean : 0 ≤ mean (tail30 volume) :=
    div_nonneg hsum (Nat.cast_nonneg _)
  have hvs := min100_bounds (mean (tail30 volume) / 100000000 / 10 * 100)
    (mul_nonneg (div_nonneg (div_nonneg hmean (by norm_num)) (by norm_num)) (by norm_num))
  have h50 : min (100:ℚ) ((5:ℚ) / 10 * 100) = 50 := by norm_num
  unfold calculate_liquidity_score
  rw [h50]
  constructor <;> nlinarith [hvs.1, hvs.2]

theorem max_drawdown_nonneg (closes : List ℚ) (h : pct_change closes ≠ []) :
    0 ≤ max_drawdown closes := by
  obtain ⟨r, rs, hdr⟩ := List.exists_cons_of_ne_nil h
  have key : ∀ c : ℚ, 0 ≤ 1 - c / c := by
    intro c
    rcases eq_or_ne c 0 with hc | hc
    · simp [hc]
    · simp [div_self hc]
  unfold max_drawdown drawdowns
  rw [hdr]
  simp only [List.map_cons, cumprod, cumprodAux, cummax, List.zipWith_cons_cons]
  exact mul_nonneg (le_trans (key (1 * (1 + r))) (le_listMax_head _ _)) (by norm_num)

theorem risk_score_bounds (closes : List ℚ) :
    0 ≤ calculate_risk_score closes ∧ calculate_risk_score closes ≤ 100 := by
  unfold calculate_risk_score
  split
  · norm_num
  · rename_i hlen
    have hvol : (0:ℝ) ≤ annual_volatility closes := by
      unfold annual_volatility
      positivity
    have hdd : 0 ≤ max_drawdown closes := by
      refine max_drawdown_nonneg closes fun hnil => hlen ?_
      simp [hnil]
    have h1 : (0:ℝ) ≤ max 0 (100 - annual_volatility closes * 2) := le_max_left _ _
    have h2 : max (0:ℝ) (100 - annual_volatility closes * 2) ≤ 100 :=
      max_le (by norm_num) (by linarith)
    have h3 : (0:ℚ) ≤ max 0 (100 - max_drawdown closes * 2) := le_max_left _ _
    have h4 : max (0:ℚ) (100 - max_drawdown closes * 2) ≤ 100 :=
      max_le (by norm_num) (by linarith)
    have h3R : (0:ℝ) ≤ (↑(max (0:ℚ) (100 - max_drawdown closes * 2)) : ℝ) := by
      exact_mod_cast h3
    have h4R : (↑(max (0:ℚ) (100 - max_drawdown closes * 2)) : ℝ) ≤ 100 := by
      exact_mod_cast h4
    constructor <;> nlinarith

theorem return_score_bounds (closes : List ℚ) :
    0 ≤ calculate_return_score closes ∧ calculate_return_score closes ≤ 100 := by
  have b1 := min100_bounds (max 0 (one_year_return closes * 2)) (le_max_left _ _)
  have b2 := min100_bounds (max 0 (three_year_return closes)) (le_max_left _ _)
  have b3 : (0:ℝ) ≤ min 100 (max 0 (sharpe closes * 10)) :=
    le_min (by norm_num) (le_max_left _ _)
  have b4 : min (100:ℝ) (max 0 (sharpe closes * 10)) ≤ 100 := min_le_left _ _
  have c1 : (0:ℝ) ≤ (↑(min 100 (max 0 (one_year_return closes * 2))) : ℝ) := by
    exact_mod_cast b1.1
  have c2 : (↑(min 100 (max 0 (one_year_return closes * 2))) : ℝ) ≤ 100 := by
    exact_mod_cast b1.2
  have c3 : (0:ℝ) ≤ (↑(min 100 (max 0 (three_year_return closes))) : ℝ) := by
    exact_mod_cast b2.1
  have c4 : (↑(min 100 (max 0 (three_year_return closes))) : ℝ) ≤ 100 := by
    exact_mod_cast b2.2
  unfold calculate_return_score
  constructor <;> nlinarith

theorem premium_base_bounds (premium_rate : ℚ) :
    0 ≤ premium_base premium_rate ∧ premium_base premium_rate ≤ 100 := by
  have habs : (0:ℚ) ≤ |premium_rate| * 5 := by positivity
  unfold premium_base
  exact ⟨le_max_left _ _, max_le (by norm_num) (by linarith)⟩

theorem premium_after_bonus_bounds (premium_rate : ℚ) :
    0 ≤ premium_after_bonus premium_rate ∧ premium_after_bonus premium_rate ≤ 100 := by
  have hb := premium_base_bounds premium_rate
  unfold premium_after_bonus
  split
  · exact ⟨le_min (by norm_num) (by linarith [hb.1]), min_le_left _ _⟩
  · exact hb

theorem premium_score_bounds (premium_rate : ℚ) :
    0 ≤ calculate_premium_score premium_rate ∧ calculate_premium_score premium_rate ≤ 100 := by
  have hb := premium_after_bonus_bounds premium_rate
  unfold calculate_premium_score
  split
  · exact ⟨le_min (by norm_num) (by linarith [hb.1]), min_le_left _ _⟩
  · exact hb

theorem sentiment_score_bounds (weights : List ℚ) (hw : ∀ w ∈ weights, 0 ≤ w) :
    0 ≤ calculate_sentiment_score weights ∧ calculate_sentiment_score weights ≤ 100 := by
  unfold calculate_sentiment_score
  split
  · norm_num
  · have htop : 0 ≤ top5_weight weights := by
      refine List.sum_nonneg fun w hwmem => hw w ?_
      exact ((List.perm_insertionSort (fun a b : ℚ => b ≤ a) weights).mem_iff).mp
        (List.take_subset _ _ hwmem)
    have h1 := min100_bounds (top5_weight weights * 150)
      (mul_nonneg htop (by norm_num))
    have h2 := min100_bounds ((industry_diversity weights : ℚ) * 10) (by positivity)
    constructor <;> nlinarith [h1.1, h1.2, h2.1, h2.2]

/-- C3: each of the five sub-scores and the weighted total lie in [0, 100],
for any input series with non-empty non-negative volume, positive closes and
non-negative component weights (the domain on which the pandas computation is
NaN-free). -/
theorem score_bounds (closes volume weights : List ℚ) (premium_rate : ℚ)
    (_hvol : volume ≠ []) (hvol0 : ∀ v ∈ volume, 0 ≤ v)
    (_hcl : ∀ c ∈ closes, 0 < c) (hw : ∀ w ∈ weights, 0 ≤ w) :
    (0 ≤ calculate_liquidity_score volume ∧ calculate_liquidity_score volume ≤ 100)
    ∧ (0 ≤ calculate_risk_score closes ∧ calculate_risk_score closes ≤ 100)
    ∧ (0 ≤ calculate_return_score closes ∧ calculate_return_score closes ≤ 100)
    ∧ (0 ≤ calculate_premium_score premium_rate ∧ calculate_premium_score premium_rate ≤ 100)
    ∧ (0 ≤ calculate_sentiment_score weights ∧ calculate_sentiment_score weights ≤ 100)
    ∧ (0 ≤ weighted_total_score closes volume premium_rate weights
        ∧ weighted_total_score closes volume premium_rate weights ≤ 100) := by
  have hl := liquidity_score_bounds volume hvol0
  have hr := risk_score_bounds closes
  have hret := return_score_bounds closes
  have hp := premium_score_bounds premium_rate
  have hs := sentiment_score_bounds weights hw
  refine ⟨hl, hr, hret, hp, hs, ?_, ?_⟩ <;>
  · unfold weighted_total_score
    have hlR1 : (0:ℝ) ≤ (↑(calculate_liquidity_score volume) : ℝ) := by exact_mod_cast hl.1
    have hlR2 : (↑(calculate_liquidity_score volume) : ℝ) ≤ 100 := by exact_mod_cast hl.2
    have hpR1 : (0:ℝ) ≤ (↑(calculate_premium_score premium_rate) : ℝ) := by
      exact_mod_cast hp.1
    have hpR2 : (↑(calculate_premium_score premium_rate) : ℝ) ≤ 100 := by exact_mod_cast hp.2
    have hsR1 : (0:ℝ) ≤ (↑(calculate_sentiment_score weights) : ℝ) := by exact_mod_cast hs.1
    have hsR2 : (↑(calculate_sentiment_score weights) : ℝ) ≤ 100 := by exact_mod_cast hs.2
    nlinarith [hr.1, hr.2, hret.1, hret.2]

/-- Witness for C3 at a concrete input. -/
theorem score_bounds_witness :
    (([5] : List ℚ) ≠ [] ∧ (∀ v ∈ ([5] : List ℚ), 0 ≤ v)
      ∧ (∀ c ∈ ([1, 2] : List ℚ), 0 < c) ∧ (∀ w ∈ ([1] : List ℚ), 0 ≤ w))
    ∧ ((0 ≤ calculate_liquidity_score [5] ∧ calculate_liquidity_score [5] ≤ 100)
      ∧ (0 ≤ calculate_risk_score [1, 2] ∧ calculate_risk_score [1, 2] ≤ 100)
      ∧ (0 ≤ calculate_return_score [1, 2] ∧ calculate_return_score [1, 2] ≤ 100)
      ∧ (0 ≤ calculate_premium_score 2 ∧ calculate_premium_score 2 ≤ 100)
      ∧ (0 ≤ calculate_sentiment_score [1] ∧ calculate_sentiment_score [1] ≤ 100)
      ∧ (0 ≤ weighted_total_score [1, 2] [5] 2 [1]
          ∧ weighted_total_score [1, 2] [5] 2 [1] ≤ 100)) :=
  ⟨⟨by decide, by decide, by decide, by decide⟩,
    score_bounds [1, 2] [5] [1] 2 (by decide) (by decide) (by decide) (by decide)⟩

/-! ## Short-history behaviour of the return sub-score (C4) and the
missing-data defaults (C5) -/

/-- C4 (amended): for a series shorter than 756 sessions the three-year
return falls back to `3 × oneYearReturn` only when the one-year return is
positive; otherwise it equals the one-year return itself.  When the series is
also shorter than 252 sessions both returns are 0, so the fallback equality
`threeYearReturn = 3 × oneYearReturn` does hold there (e.g. at 100 sessions). -/
theorem three_year_return_fallback (closes : List ℚ) (h : closes.length < 756) :
    (three_year_return closes
      = if 0 < one_year_return closes then one_year_return closes * 3
        else one_year_return closes)
    ∧ (closes.length < 252 →
        one_year_return closes = 0
        ∧ three_year_return closes = 3 * one_year_return closes) := by
  have hnot756 : ¬ 756 ≤ closes.length := by omega
  constructor
  · rw [three_year_return, if_neg hnot756]
  · intro h252
    have hone : one_year_return closes = 0 := by
      rw [one_year_return, if_neg (by omega)]
    refine ⟨hone, ?_⟩
    rw [three_year_return, if_neg hnot756, hone]
    norm_num

/-- Witness for C4 at a 100-session series of constant closes. -/
theorem three_year_return_fallback_witness :
    (List.replicate 100 (1:ℚ)).length < 756
    ∧ ((three_year_return (List.replicate 100 (1:ℚ))
        = if 0 < one_year_return (List.replicate 100 (1:ℚ)) then
            one_year_return (List.replicate 100 (1:ℚ)) * 3
          else one_year_return (List.replicate 100 (1:ℚ)))
      ∧ ((List.replicate 100 (1:ℚ)).length < 252 →
          one_year_return (List.replicate 100 (1:ℚ)) = 0
          ∧ three_year_return (List.replicate 100 (1:ℚ))
            = 3 * one_year_return (List.replicate 100 (1:ℚ)))) :=
  ⟨by decide, three_year_return_fallback (List.replicate 100 1) (by decide)⟩

/-- A 252-session series whose close fell from 2 to 1 over the year: its
one-year return is -50%. -/
def fallingCloses : List ℚ := 2 :: List.replicate 251 1

/-- C4 counterexample: on a 252-session series (fewer than 756) with a
negative one-year return the three-year return is the one-year return itself,
not 3 times it. -/
theorem three_year_return_not_always_triple :
    fallingCloses.length = 252
    ∧ fallingCloses.length < 756
    ∧ one_year_return fallingCloses = -50
    ∧ three_year_return fallingCloses = -50
    ∧ three_year_return fallingCloses ≠ 3 * one_year_return fallingCloses := by
  have hlen : fallingCloses.length = 252 := by
    rw [fallingCloses, List.length_cons, List.length_replicate]
  have hlast : fallingCloses.getD (fallingCloses.length - 1) 0 = 1 := by
    rw [hlen]
    show fallingCloses.getD 251 0 = 1
    rw [fallingCloses, List.getD_cons_succ, List.getD_eq_getElem?_getD,
      List.getElem?_replicate]
    norm_num
  have hfirst : fallingCloses.getD (fallingCloses.length - 252) 0 = 2 := by
    rw [hlen]
    show fallingCloses.getD 0 0 = 2
    rw [fallingCloses, List.getD_cons_zero]
  have hone : one_year_return fallingCloses = -50 := by
    rw [one_year_return, if_pos (by rw [hlen]), hlast, hfirst]
    norm_num
  have hthree : three_year_return fallingCloses = -50 := by
    rw [three_year_return, if_neg (by rw [hlen]; norm_num),
      if_neg (by rw [hone]; norm_num), hone]
  exact ⟨hlen, by rw [hlen]; norm_num, hone, hthree, by rw [hthree, hone]; norm_num⟩

/-- C5 (amended): a sub-score whose required history is absent is replaced by
a fixed neutral value rather than failing, but the value is 70 (not 60) for
the risk sub-score when fewer than 30 daily returns exist, while the
sentiment sub-score uses 60 when the component-weight data is missing. -/
theorem missing_data_neutral_defaults :
    (∀ closes : List ℚ, (pct_change closes).length < 30 →
      calculate_risk_score closes = 70)
    ∧ calculate_sentiment_score [] = 60 := by
  constructor
  · intro closes h
    rw [calculate_risk_score, if_pos h]
  · rfl

/-- Witness for C5 at a single-session series. -/
theorem missing_data_neutral_defaults_witness :
    (pct_change [(2:ℚ)]).length < 30
    ∧ calculate_risk_score [(2:ℚ)] = 70
    ∧ calculate_sentiment_score [] = 60 :=
  ⟨by decide, missing_data_neutral_defaults.1 [2] (by decide),
    missing_data_neutral_defaults.2⟩

/-- C5 counterexample: on a series with a single session (no daily returns)
the risk sub-score computation returns 70, not the claimed neutral 60. -/
theorem risk_default_is_70_not_60 :
    (pct_change [(1:ℚ)]).length < 30
    ∧ calculate_risk_score [(1:ℚ)] = 70
    ∧ (70 : ℝ) ≠ 60 := by
  refine ⟨by decide, ?_, by norm_num⟩
  rw [calculate_risk_score, if_pos (by decide)]

/-! ## Cache store (crawler.py lines 91-137 and data_fix.py lines 149-283).
A cache file is `Option (List Bar)` (`none` = file absent), rows in file
order.  "now - days" windows are a single `cutoff` date parameter. -/

/-- One row of a cached daily series (`open` is a Lean keyword, hence
`openPrice`). -/
structure Bar where
  date : ℕ
  openPrice : ℚ
  high : ℚ
  low : ℚ
  close : ℚ
  volume : ℚ
deriving DecidableEq

/-- Build a row with the given date, all prices and the volume equal to `v`. -/
def mkBar (d : ℕ) (v : ℚ) : Bar :=
  { date := d, openPrice := v, high := v, low := v, close := v, volume := v }

/-- `drop_duplicates(subset=['date'], keep='last')`: keep, in their original
relative order, the rows that are the last occurrence of their date. -/
def dedupKeepLast : List Bar → List Bar
  | [] => []
  | x :: xs =>
      if xs.any fun y => y.date == x.date then dedupKeepLast xs
      else x :: dedupKeepLast xs

/-- The shared age-window filter of both loaders
(`df[df['date'] >= now - timedelta(days=days)]`). -/
def load_window (rows : List Bar) (cutoff : ℕ) : List Bar :=
  rows.filter fun b => cutoff ≤ b.date

/-- `crawler.load_from_cache` (crawler.py lines 91-115): read the file, keep
only rows inside the age window; no sorting. -/
def crawler_load_from_cache : Option (List Bar) → ℕ → Option (List Bar)
  | some rows, cutoff => some (load_window rows cutoff)
  | none, _ => none

/-- `crawler.save_to_cache` (crawler.py lines 117-137): append the new rows to
the existing file, drop duplicate dates keeping the last occurrence; no
sorting. -/
def crawler_save_to_cache : Option (List Bar) → List Bar → List Bar
  | some existing, data => dedupKeepLast (existing ++ data)
  | none, data => data

/-- `sort_values('date')` (data_fix.py line 246). -/
def sort_by_date (l : List Bar) : List Bar :=
  List.insertionSort (fun a b : Bar => a.date ≤ b.date) l

/-- The merge step of `data_fix.save_to_cache` (data_fix.py lines 242-247):
concatenate, deduplicate by date keeping the last occurrence, sort ascending. -/
def datafix_merge (existing data : List Bar) : List Bar :=
  sort_by_date (dedupKeepLast (existing ++ data))

/-- `data_fix.save_to_cache` (data_fix.py lines 214-283) as a state update on
the cache file: empty data writes nothing; with an existing loadable file the
merged series is persisted; if the existing file loads empty (every row
outside the 365-day window) the new rows are written verbatim. -/
def datafix_save_to_cache : Option (List Bar) → List Bar → ℕ → Option (List Bar)
  | cache, data, cutoff =>
    if data.isEmpty then cache
    else
      match cache with
      | some existing =>
          if (load_window existing cutoff).isEmpty then some data
          else some (datafix_merge (load_window existing cutoff) data)
      | none => some data

/-- Dates strictly increase along the series. -/
def strictly_increasing_dates (l : List Bar) : Prop :=
  List.Pairwise (fun a b : Bar => a.date < b.date) l

theorem mem_of_mem_dedupKeepLast {a : Bar} : ∀ {l : List Bar},
    a ∈ dedupKeepLast l → a ∈ l := by
  intro l
  induction l with
  | nil => simp [dedupKeepLast]
  | cons x xs ih =>
    rw [dedupKeepLast]
    split
    · exact fun h => List.mem_cons_of_mem x (ih h)
    · intro h
      rcases List.mem_cons.mp h with h | h
      · exact h ▸ List.mem_cons_self x xs
      · exact List.mem_cons_of_mem x (ih h)

theorem pairwise_ne_dedupKeepLast : ∀ l : List Bar,
    List.Pairwise (fun a b : Bar => a.date ≠ b.date) (dedupKeepLast l) := by
  intro l
  induction l with
  | nil => exact List.Pairwise.nil
  | cons x xs ih =>
    rw [dedupKeepLast]
    split
    · exact ih
    · rename_i hany
      refine List.Pairwise.cons ?_ ih
      intro b hb
      have hbxs := mem_of_mem_dedupKeepLast hb
      intro heq
      exact hany (List.any_eq_true.mpr ⟨b, hbxs, by simp [heq]⟩)

instance : IsTotal Bar fun a b : Bar => a.date ≤ b.date :=
  ⟨fun a b => Nat.le_total a.date b.date⟩

instance : IsTrans Bar fun a b : Bar => a.date ≤ b.date :=
  ⟨fun _ _ _ => Nat.le_trans⟩

instance : IsAntisymm Bar fun a b : Bar => a.date < b.date :=
  ⟨fun _ _ h1 h2 => absurd (Nat.lt_trans h1 h2) (Nat.lt_irrefl _)⟩

theorem sorted_sort_by_date (l : List Bar) :
    List.Sorted (fun a b : Bar => a.date ≤ b.date) (sort_by_date l) :=
  List.sorted_insertionSort _ l

theorem perm_sort_by_date (l : List Bar) : List.Perm (sort_by_date l) l :=
  List.perm_insertionSort _ l

theorem pairwise_ne_datafix_merge (existing data : List Bar) :
    List.Pairwise (fun a b : Bar => a.date ≠ b.date) (datafix_merge existing data) :=
  (List.Perm.pairwise_iff (fun h => Ne.symm h)
    (perm_sort_by_date (dedupKeepLast (existing ++ data)))).mpr
    (pairwise_ne_dedupKeepLast (existing ++ data))

theorem strict_sorted_datafix_merge (existing data : List Bar) :
    strictly_increasing_dates (datafix_merge existing data) := by
  have hs : List.Pairwise (fun a b : Bar => a.date ≤ b.date) (datafix_merge existing data) :=
    sorted_sort_by_date (dedupKeepLast (existing ++ data))
  have hne := pairwise_ne_datafix_merge existing data
  exact (hs.and hne).imp fun h => lt_of_le_of_ne h.1 h.2

/-- C6 (amended): every series persisted by the data_fix merge-and-save has
strictly increasing dates, and so does the series a loader returns from such
a cache after its age-window filter.  (The crawler-module save does not sort,
so its loads carry no such guarantee; see the counterexample.) -/
theorem datafix_saved_series_sorted (existing data : List Bar) (cutoff : ℕ) :
    strictly_increasing_dates (datafix_merge existing data)
    ∧ strictly_increasing_dates (load_window (datafix_merge existing data) cutoff)
    ∧ crawler_load_from_cache (some (datafix_merge existing data)) cutoff
        = some (load_window (datafix_merge existing data) cutoff) := by
  have h := strict_sorted_datafix_merge existing data
  exact ⟨h, List.Pairwise.sublist (List.filter_sublist _) h, rfl⟩

/-- C6 counterexample: the crawler-module save appends without sorting, so a
subsequent load returns a series whose dates are not strictly increasing. -/
theorem crawler_load_can_return_unsorted :
    crawler_save_to_cache (some [mkBar 2 1]) [mkBar 1 1] = [mkBar 2 1, mkBar 1 1]
    ∧ crawler_load_from_cache
        (some (crawler_save_to_cache (some [mkBar 2 1]) [mkBar 1 1])) 0
        = some [mkBar 2 1, mkBar 1 1]
    ∧ ¬ strictly_increasing_dates [mkBar 2 1, mkBar 1 1] := by
  refine ⟨by decide, by decide, ?_⟩
  unfold strictly_increasing_dates
  decide

/-! ## Merge idempotence machinery (C7).  `lastOcc l d` is the row that
`drop_duplicates(keep='last')` retains for date `d`. -/

/-- The last row of `l` carrying date `d`, if any. -/
def lastOcc : List Bar → ℕ → Option Bar
  | [], _ => none
  | x :: xs, d =>
      match lastOcc xs d with
      | some r => some r
      | none => if x.date = d then some x else none

theorem lastOcc_cons (x : Bar) (xs : List Bar) (d : ℕ) :
    lastOcc (x :: xs) d
      = match lastOcc xs d with
        | some r => some r
        | none => if x.date = d then some x else none := rfl

theorem lastOcc_mem : ∀ {l : List Bar} {d : ℕ} {r : Bar},
    lastOcc l d = some r → r ∈ l ∧ r.date = d := by
  intro l
  induction l with
  | nil => intro d r h; simp [lastOcc] at h
  | cons x xs ih =>
    intro d r h
    cases hx : lastOcc xs d with
    | some s =>
      simp only [lastOcc_cons, hx] at h
      injection h with h
      exact ⟨List.mem_cons_of_mem x (h ▸ (ih hx).1), h ▸ (ih hx).2⟩
    | none =>
      simp only [lastOcc_cons, hx] at h
      by_cases hxd : x.date = d
      · rw [if_pos hxd] at h
        injection h with h
        subst h
        exact ⟨List.mem_cons_self x xs, hxd⟩
      · rw [if_neg hxd] at h
        cases h

theorem lastOcc_eq_none_iff {l : List Bar} {d : ℕ} :
    lastOcc l d = none ↔ ∀ y ∈ l, y.date ≠ d := by
  induction l with
  | nil => simp [lastOcc]
  | cons x xs ih =>
    cases hx : lastOcc xs d with
    | some s =>
      simp only [lastOcc_cons, hx]
      constructor
      · intro h; exact Option.noConfusion h
      · intro hall
        exact absurd (lastOcc_mem hx).2
          (hall s (List.mem_cons_of_mem x (lastOcc_mem hx).1))
    | none =>
      simp only [lastOcc_cons, hx]
      by_cases hxd : x.date = d
      · rw [if_pos hxd]
        constructor
        · intro h; exact Option.noConfusion h
        · intro hall; exact absurd hxd (hall x (List.mem_cons_self x xs))
      · rw [if_neg hxd]
        constructor
        · intro _ y hy
          rcases List.mem_cons.mp hy with rfl | hy
          · exact hxd
          · exact ih.mp hx y hy
        · intro _; rfl

theorem lastOcc_isSome_of_mem {l : List Bar} {y : Bar} (hy : y ∈ l) :
    ∃ r, lastOcc l y.date = some r := by
  cases h : lastOcc l y.date with
  | some r => exact ⟨r, rfl⟩
  | none => exact absurd rfl (lastOcc_eq_none_iff.mp h y hy)

theorem lastOcc_append_some {l₁ l₂ : List Bar} {d : ℕ} {r : Bar}
    (h : lastOcc l₂ d = some r) : lastOcc (l₁ ++ l₂) d = some r := by
  induction l₁ with
  | nil => exact h
  | cons x xs ih =>
    rw [List.cons_append]
    simp only [lastOcc_cons, ih]

theorem lastOcc_append_none {l₁ l₂ : List Bar} {d : ℕ}
    (h : lastOcc l₂ d = none) : lastOcc (l₁ ++ l₂) d = lastOcc l₁ d := by
  induction l₁ with
  | nil => simpa [lastOcc] using h
  | cons x xs ih =>
    rw [List.cons_append]
    rw [lastOcc_cons, ih, ← lastOcc_cons]

theorem lastOcc_of_pairwise_ne {l : List Bar} {a : Bar} {d : ℕ}
    (hl : List.Pairwise (fun a b : Bar => a.date ≠ b.date) l)
    (ha : a ∈ l) (hd : a.date = d) : lastOcc l d = some a := by
  induction l with
  | nil => cases ha
  | cons x xs ih =>
    rcases List.mem_cons.mp ha with rfl | hmem
    · have hnone : lastOcc xs d = none :=
        lastOcc_eq_none_iff.mpr fun y hy => hd ▸ Ne.symm ((List.pairwise_cons.mp hl).1 y hy)
      simp only [lastOcc_cons, hnone, if_pos hd]
    · have h2 := ih (List.pairwise_cons.mp hl).2 hmem
      simp only [lastOcc_cons, h2]

theorem mem_dedupKeepLast_iff {a : Bar} : ∀ {l : List Bar},
    a ∈ dedupKeepLast l ↔ lastOcc l a.date = some a := by
  intro l
  induction l with
  | nil => simp [dedupKeepLast, lastOcc]
  | cons x xs ih =>
    rw [dedupKeepLast]
    split
    · rename_i hany
      rw [ih]
      constructor
      · intro h; simp only [lastOcc_cons, h]
      · intro h
        cases hx : lastOcc xs a.date with
        | some r =>
          simp only [lastOcc_cons, hx] at h
          exact h
        | none =>
          simp only [lastOcc_cons, hx] at h
          by_cases hxa : x.date = a.date
          · rw [if_pos hxa] at h
            injection h with h
            obtain ⟨y, hy, hyd⟩ := List.any_eq_true.mp hany
            have hyd' : y.date = x.date := by simpa using hyd
            have hya : y.date = a.date := hyd'.trans (congrArg Bar.date h)
            exact absurd hya (lastOcc_eq_none_iff.mp hx y hy)
          · rw [if_neg hxa] at h
            cases h
    · rename_i hany
      have hnone : ∀ z : Bar, z.date = x.date → lastOcc xs z.date = none := by
        intro z hz
        refine lastOcc_eq_none_iff.mpr fun y hy hyd => hany ?_
        exact List.any_eq_true.mpr ⟨y, hy, by simp [hyd, hz]⟩
      constructor
      · intro h
        rcases List.mem_cons.mp h with rfl | hmem
        · simp [lastOcc_cons, hnone a rfl]
        · have h2 := ih.mp hmem
          simp only [lastOcc_cons, h2]
      · intro h
        cases hx : lastOcc xs a.date with
        | some r =>
          simp only [lastOcc_cons, hx] at h
          exact List.mem_cons_of_mem x (ih.mpr (hx.trans h))
        | none =>
          simp only [lastOcc_cons, hx] at h
          by_cases hxa : x.date = a.date
          · rw [if_pos hxa] at h
            injection h with h
            rw [h]
            exact List.mem_cons_self _ _
          · rw [if_neg hxa] at h
            cases h

theorem mem_load_window {y : Bar} {rows : List Bar} {cutoff : ℕ} :
    y ∈ load_window rows cutoff ↔ y ∈ rows ∧ cutoff ≤ y.date := by
  simp [load_window, List.mem_filter]

theorem mem_datafix_merge_iff {a : Bar} {existing data : List Bar} :
    a ∈ datafix_merge existing data ↔ lastOcc (existing ++ data) a.date = some a := by
  unfold datafix_merge
  rw [(perm_sort_by_date _).mem_iff]
  exact mem_dedupKeepLast_iff

theorem eq_of_strict_sorted_of_mem_iff {l₁ l₂ : List Bar}
    (h₁ : strictly_increasing_dates l₁) (h₂ : strictly_increasing_dates l₂)
    (hm : ∀ a, a ∈ l₁ ↔ a ∈ l₂) : l₁ = l₂ := by
  have hn : ∀ {l : List Bar}, strictly_increasing_dates l → l.Nodup := by
    intro l hl
    exact hl.imp fun hlt heq => absurd (heq ▸ hlt) (Nat.lt_irrefl _)
  have hperm : List.Perm l₁ l₂ := (List.perm_ext_iff_of_nodup (hn h₁) (hn h₂)).mpr hm
  exact List.eq_of_perm_of_sorted hperm h₁ h₂

/-- The row that dedup-keep-last retains for each date is unchanged when the
merged series is itself re-merged (over the same new rows): for a base list
whose rows all lie inside the age window, filtering the first merge result
and appending the same data selects the same last occurrences. -/
theorem lastOcc_stable {E data : List Bar} {cutoff : ℕ}
    (hEcut : ∀ y ∈ E, cutoff ≤ y.date) (d : ℕ) :
    lastOcc (load_window (datafix_merge E data) cutoff ++ data) d
      = lastOcc (E ++ data) d := by
  cases hd : lastOcc data d with
  | some r => rw [lastOcc_append_some hd, lastOcc_append_some hd]
  | none =>
    rw [lastOcc_append_none hd, lastOcc_append_none hd]
    have hndF : List.Pairwise (fun a b : Bar => a.date ≠ b.date)
        (load_window (datafix_merge E data) cutoff) :=
      List.Pairwise.sublist (List.filter_sublist _) (pairwise_ne_datafix_merge E data)
    cases hEoc : lastOcc E d with
    | some r =>
      have hrE := lastOcc_mem hEoc
      have hrs1 : r ∈ datafix_merge E data :=
        mem_datafix_merge_iff.mpr (by rw [hrE.2, lastOcc_append_none hd]; exact hEoc)
      have hrF : r ∈ load_window (datafix_merge E data) cutoff :=
        mem_load_window.mpr ⟨hrs1, hEcut r hrE.1⟩
      exact lastOcc_of_pairwise_ne hndF hrF hrE.2
    | none =>
      refine lastOcc_eq_none_iff.mpr fun y hyF hyd => ?_
      have hys1 : y ∈ datafix_merge E data := (mem_load_window.mp hyF).1
      have hkey := mem_datafix_merge_iff.mp hys1
      rw [hyd, lastOcc_append_none hd, hEoc] at hkey
      exact Option.noConfusion hkey

/-- C7 (amended): provided the new rows are non-empty and the existing cached
series has at least one row inside the 365-day load window (so that the merge
path of `save_to_cache` is taken), merge-and-save is idempotent over the same
new rows, the persisted series has no duplicate dates, and for a date present
in the new rows the newest occurrence is what is kept. -/
theorem merge_and_save_idempotent (existing data : List Bar) (cutoff : ℕ)
    (hdata : data ≠ []) (hwin : load_window existing cutoff ≠ []) :
    datafix_save_to_cache (some existing) data cutoff
        = some (datafix_merge (load_window existing cutoff) data)
    ∧ datafix_save_to_cache
        (some (datafix_merge (load_window existing cutoff) data)) data cutoff
        = some (datafix_merge (load_window existing cutoff) data)
    ∧ List.Pairwise (fun a b : Bar => a.date ≠ b.date)
        (datafix_merge (load_window existing cutoff) data)
    ∧ (∀ b : Bar, lastOcc data b.date = some b →
        b ∈ datafix_merge (load_window existing cutoff) data) := by
  have hdne : ¬ (data.isEmpty = true) := by simpa [List.isEmpty_iff] using hdata
  have hwinE : ¬ ((load_window existing cutoff).isEmpty = true) := by
    simpa [List.isEmpty_iff] using hwin
  have hEcut : ∀ y ∈ load_window existing cutoff, cutoff ≤ y.date :=
    fun y hy => (mem_load_window.mp hy).2
  obtain ⟨x, hx⟩ := List.exists_mem_of_ne_nil _ hwin
  obtain ⟨r, hr⟩ := lastOcc_isSome_of_mem
    (List.mem_append_left data hx)
  have hrd : r.date = x.date := (lastOcc_mem hr).2
  have hrs1 : r ∈ datafix_merge (load_window existing cutoff) data :=
    mem_datafix_merge_iff.mpr (by rw [hrd]; exact hr)
  have hrF : r ∈ load_window (datafix_merge (load_window existing cutoff) data) cutoff :=
    mem_load_window.mpr ⟨hrs1, by rw [hrd]; exact (mem_load_window.mp hx).2⟩
  have hFne : ¬ ((load_window
      (datafix_merge (load_window existing cutoff) data) cutoff).isEmpty = true) := by
    simpa [List.isEmpty_iff] using List.ne_nil_of_mem hrF
  refine ⟨?_, ?_, pairwise_ne_datafix_merge _ _,
    fun b hb => mem_datafix_merge_iff.mpr (lastOcc_append_some hb)⟩
  · simp only [datafix_save_to_cache]
    rw [if_neg hdne, if_neg hwinE]
  · simp only [datafix_save_to_cache]
    rw [if_neg hdne, if_neg hFne]
    refine congrArg some (eq_of_strict_sorted_of_mem_iff
      (strict_sorted_datafix_merge _ _) (strict_sorted_datafix_merge _ _) fun a => ?_)
    rw [mem_datafix_merge_iff, mem_datafix_merge_iff, lastOcc_stable hEcut]

/-- Witness for C7 at a one-row cache and a one-row update. -/
theorem merge_and_save_idempotent_witness :
    ([mkBar 6 2] ≠ [] ∧ load_window [mkBar 5 1] 0 ≠ [])
    ∧ (datafix_save_to_cache (some [mkBar 5 1]) [mkBar 6 2] 0
        = some (datafix_merge (load_window [mkBar 5 1] 0) [mkBar 6 2])
      ∧ datafix_save_to_cache
          (some (datafix_merge (load_window [mkBar 5 1] 0) [mkBar 6 2])) [mkBar 6 2] 0
          = some (datafix_merge (load_window [mkBar 5 1] 0) [mkBar 6 2])
      ∧ List.Pairwise (fun a b : Bar => a.date ≠ b.date)
          (datafix_merge (load_window [mkBar 5 1] 0) [mkBar 6 2])
      ∧ (∀ b : Bar, lastOcc [mkBar 6 2] b.date = some b →
          b ∈ datafix_merge (load_window [mkBar 5 1] 0) [mkBar 6 2])) :=
  ⟨⟨by decide, by decide⟩,
    merge_and_save_idempotent [mkBar 5 1] [mkBar 6 2] 0 (by decide) (by decide)⟩

/-- C7 counterexample: when the whole existing cached series lies outside the
365-day load window, `save_to_cache` overwrites the file with the new rows
verbatim, so duplicate dates in the new rows are persisted and a second save
over the same rows produces a different series than the first. -/
theorem merge_and_save_not_idempotent_outside_window :
    datafix_save_to_cache (some [mkBar 0 1]) [mkBar 200 1, mkBar 200 2] 100
        = some [mkBar 200 1, mkBar 200 2]
    ∧ ¬ List.Pairwise (fun a b : Bar => a.date ≠ b.date) [mkBar 200 1, mkBar 200 2]
    ∧ datafix_save_to_cache (some [mkBar 200 1, mkBar 200 2])
        [mkBar 200 1, mkBar 200 2] 100
        = some [mkBar 200 2]
    ∧ some [mkBar 200 2] ≠ some [mkBar 200 1, mkBar 200 2] := by
  refine ⟨by decide, by decide, by decide, by decide⟩

/-! ## Replacement sequence of `data_fix.save_to_cache` (C8).  The source
writes the temp file (line 236), rewrites it with the merged series (line
247), then replaces the cache file with `os.remove(cache_path)` followed by
`os.rename(temp_path, cache_path)` (lines 255-258).  We model the filesystem
operations issued on the merge path and the cache-file content observable
before each operation and after the last. -/

/-- The two files `save_to_cache` touches. -/
structure FsState where
  cacheFile : Option (List Bar)
  tempFile : Option (List Bar)
deriving DecidableEq

/-- Filesystem operations issued by `save_to_cache`. -/
inductive FsOp
  | writeTemp (content : List Bar)
  | removeCache
  | renameTempToCache
deriving DecidableEq

/-- Effect of one operation. -/
def applyOp (s : FsState) : FsOp → FsState
  | .writeTemp c => { s with tempFile := some c }
  | .removeCache => { s with cacheFile := none }
  | .renameTempToCache => { cacheFile := s.tempFile, tempFile := none }

/-- The operation sequence of the merge path of `save_to_cache` when the
cache file exists. -/
def saveOps (data merged : List Bar) : List FsOp :=
  [.writeTemp data, .writeTemp merged, .removeCache, .renameTempToCache]

/-- Every state observable during a possibly-interrupted run: the state
before each operation and after the last. -/
def statesAlong (s : FsState) : List FsOp → List FsState
  | [] => [s]
  | op :: ops => s :: statesAlong (applyOp s op) ops

/-- C8 (amended): the merged content reaches the cache file only through the
temp file, so a reader sees the old series, no file at all, or the merged
series — never partially-written content; but the replacement is
remove-then-rename, not an atomic rename: between the remove and the rename
the cache file is absent, and a run that fails right before the rename loses
the previously persisted file (see the counterexample). -/
theorem save_replacement_trace (old data merged : List Bar) :
    statesAlong { cacheFile := some old, tempFile := none } (saveOps data merged)
      = [ { cacheFile := some old, tempFile := none },
          { cacheFile := some old, tempFile := some data },
          { cacheFile := some old, tempFile := some merged },
          { cacheFile := none, tempFile := some merged },
          { cacheFile := some merged, tempFile := none } ]
    ∧ (∀ s ∈ statesAlong { cacheFile := some old, tempFile := none } (saveOps data merged),
        s.cacheFile = some old ∨ s.cacheFile = none ∨ s.cacheFile = some merged) := by
  refine ⟨rfl, ?_⟩
  intro s hs
  simp only [statesAlong, saveOps, applyOp, List.mem_cons,
    List.not_mem_nil, or_false] at hs
  rcases hs with rfl | rfl | rfl | rfl | rfl <;> simp

/-- Witness for C8 at concrete contents. -/
theorem save_replacement_trace_witness :
    ({ cacheFile := some [mkBar 3 1], tempFile := none } : FsState)
      ∈ statesAlong { cacheFile := some [mkBar 3 1], tempFile := none }
          (saveOps [mkBar 4 1] [mkBar 3 1, mkBar 4 1])
    ∧ (statesAlong { cacheFile := some [mkBar 3 1], tempFile := none }
          (saveOps [mkBar 4 1] [mkBar 3 1, mkBar 4 1])
        = [ { cacheFile := some [mkBar 3 1], tempFile := none },
            { cacheFile := some [mkBar 3 1], tempFile := some [mkBar 4 1] },
            { cacheFile := some [mkBar 3 1], tempFile := some [mkBar 3 1, mkBar 4 1] },
            { cacheFile := none, tempFile := some [mkBar 3 1, mkBar 4 1] },
            { cacheFile := some [mkBar 3 1, mkBar 4 1], tempFile := none } ]
      ∧ ∀ s ∈ statesAlong { cacheFile := some [mkBar 3 1], tempFile := none }
            (saveOps [mkBar 4 1] [mkBar 3 1, mkBar 4 1]),
          s.cacheFile = some [mkBar 3 1] ∨ s.cacheFile = none
            ∨ s.cacheFile = some [mkBar 3 1, mkBar 4 1]) :=
  ⟨by decide, save_replacement_trace [mkBar 3 1] [mkBar 4 1] [mkBar 3 1, mkBar 4 1]⟩

/-- C8 counterexample: a run interrupted after `os.remove` but before
`os.rename` (the first three operations of the sequence) leaves no cache
file, so a failed write does not leave the previously persisted file
untouched, and in that window a reader observes neither the old nor the new
series. -/
theorem interrupted_save_loses_previous_file :
    (List.foldl applyOp { cacheFile := some [mkBar 1 1], tempFile := none }
        ((saveOps [mkBar 2 1] [mkBar 1 1, mkBar 2 1]).take 3)).cacheFile = none
    ∧ (none : Option (List Bar)) ≠ some [mkBar 1 1] := by
  exact ⟨rfl, by decide⟩

/-! ## Provider chain of `data_fix.get_etf_data` (C9, data_fix.py lines
479-732) and the batch loop `crawl_etf_data` (lines 1403-1479).  Each
provider result is `Option (List Bar)`: `none` for an exception, an empty
response or an invalid result. -/

/-- `df is not None and not df.empty`. -/
def nonEmptyOpt : Option (List Bar) → Option (List Bar)
  | some l => if l.isEmpty then none else some l
  | none => none

/-- `cached_data['date'].max()`. -/
def maxDate (l : List Bar) : ℕ :=
  l.foldl (fun m b => max m b.date) 0

/-- `df = df[df['date'] >= start_date_dt]` when a start date was computed. -/
def applyStartDate : Option ℕ → List Bar → List Bar
  | none, l => l
  | some d, l => l.filter fun b => d ≤ b.date

/-- `data_fix.get_etf_data` (lines 479-732): compute `start_date` from the
cache (last cached date + 1), then try the AkShare main interface, the
AkShare backup interface, Baostock and Sina in order; the first non-empty
result is date-filtered (AkShare branch only), sorted and returned; if every
provider fails the function returns `None` — the cache itself is never
returned. -/
def datafix_get_etf_data (cached ak_main ak_backup baostock_df sina_df : Option (List Bar)) :
    Option (List Bar) :=
  let start_date : Option ℕ :=
    match nonEmptyOpt cached with
    | some c => some (maxDate c + 1)
    | none => none
  match nonEmptyOpt ak_main with
  | some df => some (sort_by_date (applyStartDate start_date df))
  | none =>
    match nonEmptyOpt ak_backup with
    | some df => some (sort_by_date (applyStartDate start_date df))
    | none =>
      match nonEmptyOpt baostock_df with
      | some df => some (sort_by_date df)
      | none =>
        match nonEmptyOpt sina_df with
        | some df => some (sort_by_date df)
        | none => none

/-- Modelled from the spec: `update_crawl_status` is called at data_fix.py
line 1461 but defined nowhere under src/; per §4.3/§7 of the spec the tracker
maps each symbol to a state and the last error message.  The update replaces
the symbol's entry. -/
structure CrawlStatus where
  state : String
  last_error : String
deriving DecidableEq

/-- Modelled from the spec: replace the tracked entry for `symbol`. -/
def update_crawl_status (statuses : List (String × CrawlStatus))
    (symbol state err : String) : List (String × CrawlStatus) :=
  (symbol, { state := state, last_error := err })
    :: statuses.filter fun p => p.1 ≠ symbol

/-- Per-symbol outcome inside the `crawl_etf_data` loop. -/
inductive SymbolOutcome
  | fresh
  | fetched (df : List Bar)
  | unavailable
  | raised (msg : String)

/-- Counters and tracker state of one batch run of `crawl_etf_data`. -/
structure BatchCounters where
  success_count : ℕ
  failed_count : ℕ
  skipped_count : ℕ
  statuses : List (String × CrawlStatus)
deriving DecidableEq

/-- One iteration of the `crawl_etf_data` loop (data_fix.py lines 1422-1461):
a fresh cache is skipped; complete data counts as success; a `None` return
from `get_etf_data` (all providers failed) only increments `failed_count`
(lines 1453-1455) — the status tracker is updated solely in the exception
handler (line 1461). -/
def crawl_step (c : BatchCounters) (symbol : String) : SymbolOutcome → BatchCounters
  | .fresh => { c with skipped_count := c.skipped_count + 1 }
  | .fetched _ => { c with success_count := c.success_count + 1 }
  | .unavailable => { c with failed_count := c.failed_count + 1 }
  | .raised msg =>
      { c with
          failed_count := c.failed_count + 1
          statuses := update_crawl_status c.statuses symbol "failed" msg }

/-- C9 (code evaluation at the failing input): when every provider fails,
`get_etf_data` returns `None` for any cache state, and the batch loop counts
the symbol as failed without crashing — but on this graceful path it records
nothing in the crawl status tracker; only an exception escaping the symbol's
processing reaches `update_crawl_status`. -/
theorem all_providers_failed_not_tracked (cached : Option (List Bar)) :
    datafix_get_etf_data cached none none none none = none
    ∧ (crawl_step (BatchCounters.mk 0 0 0 []) "sh.510050" .unavailable).statuses = []
    ∧ (crawl_step (BatchCounters.mk 0 0 0 []) "sh.510050" .unavailable).failed_count = 1
    ∧ (crawl_step (BatchCounters.mk 0 0 0 []) "sh.510050"
          (.raised "TypeError: unexpected keyword argument")).statuses
        = [("sh.510050", CrawlStatus.mk "failed" "TypeError: unexpected keyword argument")] := by
  refine ⟨?_, rfl, rfl, rfl⟩
  cases cached <;> rfl

/-! ## Totality of `calculate_ETF_score` (C10, scoring.py lines 238-280).
The acquired DataFrame may lack the `volume` or `close` column (the cache is
written from whatever a vendor returned); a missing column raises `KeyError`
inside a sub-score, which the surrounding `try` converts to `None`. -/

/-- An acquired DataFrame: its rows plus which of the two accessed columns
exist. -/
structure RawFrame where
  rows : List Bar
  has_close : Bool
  has_volume : Bool
deriving DecidableEq

/-- `df[col]`: the column values, or a `KeyError` if the column is absent. -/
def getColumn (f : RawFrame) (has : Bool) (sel : Bar → ℚ) : Except String (List ℚ) :=
  if has then .ok (f.rows.map sel) else .error "KeyError"

/-- `round(x, 1)` (Python rounds half to even; on non-tie values this agrees
with rounding half up, which we use). -/
noncomputable def round1 (x : ℝ) : ℝ :=
  ((round (x * 10) : ℤ) : ℝ) / 10

/-- The scored dict built by `calculate_ETF_score`. -/
structure EtfScores where
  liquidity_score : ℝ
  risk_score : ℝ
  return_score : ℝ
  premium_score : ℝ
  sentiment_score : ℝ
  total_score : ℝ

/-- The body of the `try` block of `calculate_ETF_score` (scoring.py lines
253-277): read the volume column (liquidity), the close column (risk,
return), then assemble the rounded score dict; a missing column escapes as an
error. -/
noncomputable def score_body (f : RawFrame) (premium_rate : ℚ) (weights : List ℚ) :
    Except String EtfScores :=
  match getColumn f f.has_volume (fun b => b.volume) with
  | .error e => .error e
  | .ok vols =>
    match getColumn f f.has_close (fun b => b.close) with
    | .error e => .error e
    | .ok closes =>
      .ok { liquidity_score := round1 ((calculate_liquidity_score vols : ℚ) : ℝ),
            risk_score := round1 (calculate_risk_score closes),
            return_score := round1 (calculate_return_score closes),
            premium_score := round1 ((calculate_premium_score premium_rate : ℚ) : ℝ),
            sentiment_score := round1 ((calculate_sentiment_score weights : ℚ) : ℝ),
            total_score := round1 (weighted_total_score closes vols premium_rate weights) }

/-- `calculate_ETF_score` (scoring.py lines 238-280): `None` when acquisition
returned nothing or an empty frame, `None` when the body raises, otherwise
the scored dict. -/
noncomputable def calculate_ETF_score (data : Option RawFrame) (premium_rate : ℚ)
    (weights : List ℚ) : Option EtfScores :=
  match data with
  | none => none
  | some f =>
      if f.rows.isEmpty then none
      else
        match score_body f premium_rate weights with
        | .ok r => some r
        | .error _ => none

/-- The scoring loop of `generate_stock_pool` (scoring.py lines 293-297):
append each symbol's score, skipping the `None`s. -/
def scored_etfs {α : Type} (codes : List String) (scoreOf : String → Option α) : List α :=
  codes.filterMap scoreOf

/-- C10: `calculate_ETF_score` is total: it returns `some` exactly when
acquisition produced a non-empty frame carrying both accessed columns, and
`none` (never an uncaught exception) otherwise; a symbol whose score is
`None` is skipped by the batch loop while the remaining symbols are still
scored. -/
theorem calculate_ETF_score_total (data : Option RawFrame) (premium_rate : ℚ)
    (weights : List ℚ) :
    ((calculate_ETF_score data premium_rate weights).isSome
      ↔ ∃ f, data = some f ∧ f.rows ≠ [] ∧ f.has_volume = true ∧ f.has_close = true)
    ∧ (∀ {α : Type} (codes₁ codes₂ : List String) (c : String)
        (scoreOf : String → Option α), scoreOf c = none →
        scored_etfs (codes₁ ++ c :: codes₂) scoreOf
          = scored_etfs codes₁ scoreOf ++ scored_etfs codes₂ scoreOf) := by
  constructor
  · cases data with
    | none => simp [calculate_ETF_score]
    | some f =>
      by_cases hempty : f.rows.isEmpty
      · simp [calculate_ETF_score, hempty, List.isEmpty_iff.mp hempty]
      · cases hv : f.has_volume with
        | false =>
          simp [calculate_ETF_score, hempty, score_body, getColumn, hv]
        | true =>
          cases hc : f.has_close with
          | false =>
            simp [calculate_ETF_score, hempty, score_body, getColumn, hv, hc]
          | true =>
            simp [calculate_ETF_score, hempty, score_body, getColumn, hv, hc,
              List.isEmpty_iff]
            exact fun h => hempty (by simp [List.isEmpty_iff, h])
  · intro α codes₁ codes₂ c scoreOf hc
    simp [scored_etfs, List.filterMap_append, List.filterMap_cons, hc]

/-- Witness for C10: a frame lacking the volume column scores to `None` and
is skipped by the loop. -/
theorem calculate_ETF_score_total_witness :
    ((calculate_ETF_score
        (some { rows := [mkBar 1 1], has_close := true, has_volume := false }) 0 []).isSome
      ↔ ∃ f : RawFrame,
          some ({ rows := [mkBar 1 1], has_close := true, has_volume := false } : RawFrame)
            = some f
          ∧ f.rows ≠ [] ∧ f.has_volume = true ∧ f.has_close = true)
    ∧ scored_etfs (["a"] ++ "b" :: ["c"]) (fun s => if s = "b" then none else some s)
        = scored_etfs ["a"] (fun s => if s = "b" then none else some s)
          ++ scored_etfs ["c"] (fun s => if s = "b" then none else some s) :=
  ⟨(calculate_ETF_score_total
      (some { rows := [mkBar 1 1], has_close := true, has_volume := false }) 0 []).1,
    (calculate_ETF_score_total none 0 []).2 ["a"] ["c"] "b"
      (fun s => if s = "b" then none else some s) (by decide)⟩

end EtfStrategy
